import Mathlib

/-!
Verification of the message scheduling engine of the Ladybug-Baileys repository.

The development shallowly embeds the MessageScheduler class together with the
slice of StorageManager, LadybugBaileys.sendMessage and RateLimiter.checkLimit
that the scheduler exercises.  Instants are epoch milliseconds (Nat).  The
storage namespace `scheduled:<id>` is represented by an association list keyed
by `<id>`; the other storage namespaces (`recurring:`, `message:`, ...) are
disjoint by key prefix and never returned by the `scheduled:*` key pattern, so
they are not represented.  Asynchronous effects are made explicit: every
operation returns its successor state together with a list of observable
events (delivery attempts through the gateway and timer arming).
-/

/-- Delivery status of a scheduled message (field `status` of `ScheduledMessage`,
src/unnamed/part_007). -/
inductive MsgStatus
  | pending
  | sent
  | failed
  | cancelled
deriving DecidableEq, Repr

/-- A scheduled one-shot message record as persisted by the scheduler
(src/unnamed/part_007, interface `ScheduledMessage`).  `scheduledTime` is an
instant in epoch milliseconds; the payload is opaque and kept as a string. -/
structure ScheduledMessage where
  id : String
  jid : String
  content : String
  scheduledTime : Nat
  status : MsgStatus
  retryCount : Nat
  maxRetries : Nat
deriving DecidableEq, Repr

/-- The `scheduled:` namespace of the storage, keyed by message id.  The order
of the list is the key insertion order of the underlying JS Map or object. -/
abbrev SchedStore := List (String × ScheduledMessage)

/-- JS `Map.set` / object property assignment: replace the entry in place when
the key is present, append at the end otherwise. -/
def setKey (k : String) (v : ScheduledMessage) : SchedStore → SchedStore
  | [] => [(k, v)]
  | p :: rest => if p.1 = k then (k, v) :: rest else p :: setKey k v rest

/-- In-memory state of a `MessageScheduler` instance: the persistent store view
and the ids present in the `scheduledTasks` timer-handle map. -/
structure SchedState where
  store : SchedStore
  tasks : List String
deriving DecidableEq, Repr

/-- Observable events of one scheduler operation: an invocation of the delivery
gateway for a task id, the arming of a future one-shot timer, or an immediate
(zero-delay) processing request. -/
inductive Event
  | deliveryAttempt (id : String)
  | timerArmed (id : String) (fireAt : Nat)
  | timerImmediate (id : String)
deriving DecidableEq, Repr

/-- Remove a timer-handle entry (`scheduledTasks.delete`). -/
def removeTask (id : String) (ts : List String) : List String :=
  ts.filter (fun x => !(x == id))

/-- Insert a timer-handle entry (`scheduledTasks.set`). -/
def addTask (id : String) (ts : List String) : List String :=
  id :: removeTask id ts

/-- `storage.getScheduledMessages()`: all values stored under `scheduled:*`
keys, in key order (src/unnamed/part_007, StorageManager). -/
def getScheduledMessages (st : SchedStore) : List ScheduledMessage :=
  st.map (·.2)

/-- `MessageScheduler.getScheduledMessage`: fetch every `scheduled:*` value and
return the first whose `id` field equals the requested id
(src/unnamed/part_007 lines 703-712). -/
def getScheduledMessage (id : String) (st : SchedStore) : Option ScheduledMessage :=
  (getScheduledMessages st).find? (fun m => m.id == id)

/-- `MessageScheduler.getScheduledMessages('pending')`: the status-filtered
listing used by the loader and the periodic sweep. -/
def getPendingMessages (st : SchedStore) : List ScheduledMessage :=
  (getScheduledMessages st).filter (fun m => m.status == MsgStatus.pending)

/-- `message.maxRetries || 3`: a zero (or missing) max-retry count falls back
to the default 3 through JS truthiness (src/unnamed/part_007 line 1023). -/
def effMaxRetries (m : ScheduledMessage) : Nat :=
  if m.maxRetries = 0 then 3 else m.maxRetries

/-- `options.retries || 3` at task creation (src/unnamed/part_007 line 643). -/
def retriesOrDefault : Option Nat → Nat
  | none => 3
  | some 0 => 3
  | some (Nat.succ r) => Nat.succ r

/-- `MessageScheduler.scheduleSingleMessage` (src/unnamed/part_007 lines
951-967): a non-positive delay triggers immediate processing without
registering a handle; a positive delay registers a one-shot timer under the
message id. -/
def scheduleSingleMessage (now : Nat) (id : String) (m : ScheduledMessage)
    (ts : List String) : List String × List Event :=
  if m.scheduledTime ≤ now then (ts, [Event.timerImmediate id])
  else (addTask id ts, [Event.timerArmed id m.scheduledTime])

/-- `MessageScheduler.scheduleMessage` (src/unnamed/part_007 lines 621-659).
The generated message id is passed as a parameter.  A schedule time not
strictly in the future throws; otherwise the pending task is persisted and a
timer armed. -/
def scheduleMessage (jid content id : String) (scheduleTime now : Nat)
    (retriesOpt : Option Nat) (s : SchedState) :
    Except String (String × SchedState × List Event) :=
  if scheduleTime ≤ now then .error "Schedule time must be in the future"
  else
    let m : ScheduledMessage :=
      { id := id, jid := jid, content := content, scheduledTime := scheduleTime,
        status := .pending, retryCount := 0, maxRetries := retriesOrDefault retriesOpt }
    let store' := setKey id m s.store
    let (ts', evs) := scheduleSingleMessage now id m s.tasks
    .ok (id, ⟨store', ts'⟩, evs)

/-- Caller view of `scheduleMessage`: a thrown validation error leaves the
state of the caller unchanged. -/
def scheduleMessageRun (jid content id : String) (scheduleTime now : Nat)
    (retriesOpt : Option Nat) (s : SchedState) :
    Except String String × SchedState × List Event :=
  match scheduleMessage jid content id scheduleTime now retriesOpt s with
  | .error e => (.error e, s, [])
  | .ok (i, s', evs) => (.ok i, s', evs)

/-- `MessageScheduler.cancelScheduledMessage` (src/unnamed/part_007 lines
714-739): returns false when the id is absent; otherwise stops any live
timer, overwrites the status with `cancelled` and returns true.  The current
status of the task is not consulted. -/
def cancelScheduledMessage (id : String) (s : SchedState) : Bool × SchedState :=
  match getScheduledMessage id s.store with
  | none => (false, s)
  | some m =>
    let ts' := removeTask id s.tasks
    let m' := { m with status := MsgStatus.cancelled }
    (true, ⟨setKey id m' s.store, ts'⟩)

/-- A `Partial<ScheduledMessage>` update object. -/
structure MsgUpdates where
  id : Option String := none
  jid : Option String := none
  content : Option String := none
  scheduledTime : Option Nat := none
  status : Option MsgStatus := none
  retryCount : Option Nat := none
  maxRetries : Option Nat := none
deriving DecidableEq, Repr

/-- JS object spread `{ ...message, ...updates }`. -/
def applyUpdates (m : ScheduledMessage) (u : MsgUpdates) : ScheduledMessage :=
  { id := u.id.getD m.id,
    jid := u.jid.getD m.jid,
    content := u.content.getD m.content,
    scheduledTime := u.scheduledTime.getD m.scheduledTime,
    status := u.status.getD m.status,
    retryCount := u.retryCount.getD m.retryCount,
    maxRetries := u.maxRetries.getD m.maxRetries }

/-- `MessageScheduler.updateScheduledMessage` (src/unnamed/part_007 lines
741-776): absent id returns false; otherwise the updates are merged and
persisted without consulting the current status.  A changed schedule time
(modelled by value inequality of the supplied instant) disarms and rearms the
timer. -/
def updateScheduledMessage (id : String) (u : MsgUpdates) (now : Nat)
    (s : SchedState) : Bool × SchedState × List Event :=
  match getScheduledMessage id s.store with
  | none => (false, s, [])
  | some m =>
    let timeChanged := match u.scheduledTime with
      | some t => !(t == m.scheduledTime)
      | none => false
    let ts1 := if timeChanged then removeTask id s.tasks else s.tasks
    let m' := applyUpdates m u
    let store' := setKey id m' s.store
    if timeChanged then
      let (ts2, evs) := scheduleSingleMessage now id m' ts1
      (true, ⟨store', ts2⟩, evs)
    else (true, ⟨store', ts1⟩, [])

/-- Outcome of one call to the delivery gateway
(`this.ladybug.sendMessage`): a result with `success: true`, a result with
`success: false`, or a raised error / rejected promise. -/
inductive GatewayResult
  | success
  | failure
  | thrown
deriving DecidableEq, Repr

/-- `MessageScheduler.sendScheduledMessage` (src/unnamed/part_007 lines
1006-1048).  On success the task is marked `sent`.  On a returned failure the
retry counter is incremented; while the new counter is below the effective
max-retry bound the task is rescheduled `retryCount * 5` minutes ahead and
stays `pending`, otherwise it stays `failed`; in both cases the timer handle
is dropped after persisting.  A raised error is caught: the task is marked
`failed` with the counter incremented and persisted, skipping the reschedule
logic and the handle cleanup. -/
def sendScheduledMessage (now : Nat) (gw : GatewayResult) (id : String)
    (m : ScheduledMessage) (s : SchedState) : SchedState × List Event :=
  match gw with
  | .success =>
      let m' := { m with status := MsgStatus.sent }
      (⟨setKey id m' s.store, removeTask id s.tasks⟩, [Event.deliveryAttempt id])
  | .failure =>
      let rc := m.retryCount + 1
      if rc < effMaxRetries m then
        let m' := { m with
          status := MsgStatus.pending, retryCount := rc, scheduledTime := now + rc * 300000 }
        let (ts1, evs) := scheduleSingleMessage now id m' s.tasks
        (⟨setKey id m' s.store, removeTask id ts1⟩, Event.deliveryAttempt id :: evs)
      else
        let m' := { m with status := MsgStatus.failed, retryCount := rc }
        (⟨setKey id m' s.store, removeTask id s.tasks⟩, [Event.deliveryAttempt id])
  | .thrown =>
      let m' := { m with status := MsgStatus.failed, retryCount := m.retryCount + 1 }
      (⟨setKey id m' s.store, s.tasks⟩, [Event.deliveryAttempt id])

/-- `MessageScheduler.processScheduledMessage` (src/unnamed/part_007 lines
984-1004): reload the task; abort when absent or no longer `pending`; rearm
when the schedule time has moved into the future; otherwise attempt the
delivery. -/
def processScheduledMessage (now : Nat) (gw : GatewayResult) (id : String)
    (s : SchedState) : SchedState × List Event :=
  match getScheduledMessage id s.store with
  | none => (s, [])
  | some m =>
    if m.status ≠ MsgStatus.pending then (s, [])
    else if now < m.scheduledTime then
      let (ts', evs) := scheduleSingleMessage now id m s.tasks
      (⟨s.store, ts'⟩, evs)
    else sendScheduledMessage now gw id m s

/-- `MessageScheduler.processPendingMessages` (src/unnamed/part_007 lines
1072-1085), the once-per-minute sweep: snapshot the pending tasks, then
process every one whose schedule time has elapsed.  `gw` gives the gateway
result for each task id. -/
def processPendingMessages (now : Nat) (gw : String → GatewayResult)
    (s : SchedState) : SchedState × List Event :=
  (getPendingMessages s.store).foldl
    (fun acc m =>
      if m.scheduledTime ≤ now then
        let r := processScheduledMessage now (gw m.id) m.id acc.1
        (r.1, acc.2 ++ r.2)
      else acc)
    (s, [])

/-- `MessageScheduler.loadScheduledMessages` (src/unnamed/part_007 lines
919-933): at scheduler start-up, arm a timer for every pending task whose
schedule time is still in the future.  Tasks already due are skipped. -/
def loadScheduledMessages (now : Nat) (s : SchedState) : SchedState × List Event :=
  (getPendingMessages s.store).foldl
    (fun acc m =>
      if now < m.scheduledTime then
        let r := scheduleSingleMessage now m.id m acc.1.tasks
        (⟨acc.1.store, r.1⟩, acc.2 ++ r.2)
      else acc)
    (s, [])

/-- `MessageScheduler.initialize` restricted to scheduled one-shot tasks
(src/unnamed/part_007 lines 600-619): it runs `loadScheduledMessages`, then
loads recurring schedules (which touch no scheduled task) and calls `start()`,
which only arms the 60-second sweep interval without running a sweep. -/
def initScheduler (now : Nat) (s : SchedState) : SchedState × List Event :=
  loadScheduledMessages now s

/-- `MessageScheduler.getNextRunTime` (src/unnamed/part_007 lines 1087-1095):
for a pattern accepted by the cron library the fixed placeholder `now + 1h` is
returned; the pattern itself is never evaluated.  An invalid pattern falls to
the catch branch returning `now + 1 day`. -/
def getNextRunTime (patternValid : Bool) (now : Nat) : Nat :=
  if patternValid then now + 3600000 else now + 86400000

/-- `MessageScheduler.scheduleMessageWithConditions` (src/unnamed/part_007
lines 1133-1161): generates an id, registers only an interval handle under it
and returns it.  The store is not touched. -/
def scheduleMessageWithConditions (id : String) (s : SchedState) :
    String × SchedState :=
  (id, ⟨s.store, addTask id s.tasks⟩)

/-- The body of the condition-polling interval of
`scheduleMessageWithConditions` once the condition evaluates to true: the
interval is cleared and `scheduleMessage` is called with a freshly generated
id and the current instant as schedule time (`new Date()`); `condTime` is
that instant and `now` the clock value inside `scheduleMessage`.  A thrown
validation error is caught and logged, leaving the state unchanged. -/
def conditionMetStep (jid content freshId : String) (retriesOpt : Option Nat)
    (condTime now : Nat) (s : SchedState) : SchedState × List Event :=
  match scheduleMessage jid content freshId condTime now retriesOpt s with
  | .error _ => (s, [])
  | .ok (_, s', evs) => (s', evs)

/-- Fixed-window rate limiter state for one key: current request count and the
window reset instant (src/src/utils/RateLimiter.ts, entries of the NodeCache
keyed by `send:<jid>`). -/
structure RateWindow where
  count : Nat
  resetTime : Nat
deriving DecidableEq, Repr

/-- The result object returned by `RateLimiter.checkLimit`. -/
structure RateLimitResult where
  allowed : Bool
  remaining : Nat
  resetTime : Nat
  retryAfter : Option Nat
deriving DecidableEq, Repr

/-- `RateLimiter.checkLimit` (src/src/utils/RateLimiter.ts lines 26-70): with
limiting disabled everything is allowed; otherwise the window is reset when
expired, the request is allowed while the count is below `maxRequests` (and
then counted), and a denial carries `retryAfter = ceil((resetTime - now) /
1000)` seconds. -/
def checkLimit (enabled : Bool) (maxRequests windowMs now : Nat)
    (w : RateWindow) : RateLimitResult × RateWindow :=
  if enabled = false then
    ({ allowed := true, remaining := maxRequests, resetTime := now + windowMs,
       retryAfter := none }, w)
  else
    let count0 := if w.resetTime < now then 0 else w.count
    let reset0 := if w.resetTime < now then now + windowMs else w.resetTime
    if count0 < maxRequests then
      ({ allowed := true, remaining := maxRequests - count0, resetTime := reset0,
         retryAfter := none },
       { count := count0 + 1, resetTime := reset0 })
    else
      ({ allowed := false, remaining := maxRequests - count0, resetTime := reset0,
         retryAfter := some ((reset0 - now + 999) / 1000) },
       { count := count0, resetTime := reset0 })

/-- Outcome of one `LadybugBaileys.sendMessage` call: the `success` field of
the returned APIResponse and whether the underlying socket delivery was
invoked. -/
structure SendOutcome where
  success : Bool
  gatewayInvoked : Bool
deriving DecidableEq, Repr

/-- `LadybugBaileys.sendMessage` (src/unnamed/part_006 lines 209-274) for a
call without the `schedule` option, as issued by the scheduler.  The rate
limiter is invoked when enabled, but its result object is discarded: the
control flow continues to the socket delivery whether or not the call was
allowed.  A disconnected socket or a validation failure raises, which the
catch block converts into a `success: false` response. -/
def ladybugSendMessage (connected validOk enableRL : Bool)
    (maxRequests windowMs now : Nat) (w : RateWindow) (gwThrows : Bool) :
    SendOutcome × RateWindow :=
  if connected = false then ({ success := false, gatewayInvoked := false }, w)
  else if validOk = false then ({ success := false, gatewayInvoked := false }, w)
  else
    let w' := if enableRL then (checkLimit true maxRequests windowMs now w).2 else w
    if gwThrows then ({ success := false, gatewayInvoked := true }, w')
    else ({ success := true, gatewayInvoked := true }, w')

/-- Store well-formedness, maintained by the scheduler: every value is stored
under its own id, and keys are unique. -/
def WFStore (st : SchedStore) : Prop :=
  (∀ p ∈ st, p.2.id = p.1) ∧ (st.map Prod.fst).Nodup

theorem wfStore_nil : WFStore [] := ⟨by simp, by simp⟩

instance (st : SchedStore) : Decidable (WFStore st) := by
  unfold WFStore
  infer_instance

theorem mem_map_fst_setKey {st : SchedStore} {k a : String} {v : ScheduledMessage}
    (h : a ∈ (setKey k v st).map Prod.fst) : a ∈ st.map Prod.fst ∨ a = k := by
  induction st with
  | nil =>
    simp only [setKey, List.map_cons, List.map_nil, List.mem_singleton] at h
    exact Or.inr h
  | cons p rest ih =>
    by_cases hk : p.1 = k
    · simp only [setKey, if_pos hk, List.map_cons, List.mem_cons] at h
      rcases h with h | h
      · exact Or.inr h
      · exact Or.inl (List.mem_cons_of_mem _ h)
    · simp only [setKey, if_neg hk, List.map_cons, List.mem_cons] at h
      rcases h with h | h
      · exact Or.inl (List.mem_cons.mpr (Or.inl h))
      · rcases ih h with h' | h'
        · exact Or.inl (List.mem_cons_of_mem _ h')
        · exact Or.inr h'

theorem wfStore_setKey {st : SchedStore} {k : String} {v : ScheduledMessage}
    (h : WFStore st) (hid : v.id = k) : WFStore (setKey k v st) := by
  induction st with
  | nil => exact ⟨by simp [setKey, hid], by simp [setKey]⟩
  | cons p rest ih =>
    obtain ⟨hfield, hnd⟩ := h
    have hprest : WFStore rest :=
      ⟨fun q hq => hfield q (List.mem_cons_of_mem _ hq), (List.nodup_cons.mp (by simpa using hnd)).2⟩
    by_cases hk : p.1 = k
    · refine ⟨?_, ?_⟩
      · intro q hq
        simp [setKey, hk] at hq
        rcases hq with rfl | hq
        · exact hid
        · exact hfield q (List.mem_cons_of_mem _ hq)
      · simp only [setKey, hk, if_pos rfl, List.map_cons]
        have : (p.1 :: rest.map Prod.fst).Nodup := by simpa using hnd
        rw [← hk]
        simpa using this
    · obtain ⟨hw1, hw2⟩ := ih hprest
      refine ⟨?_, ?_⟩
      · intro q hq
        simp only [setKey, if_neg hk] at hq
        rcases List.mem_cons.mp hq with rfl | hq
        · exact hfield q (List.mem_cons_self _ _)
        · exact hw1 q hq
      · simp only [setKey, if_neg hk, List.map_cons]
        refine List.nodup_cons.mpr ⟨?_, hw2⟩
        intro hmem
        rcases mem_map_fst_setKey hmem with h' | h'
        · exact (List.nodup_cons.mp (by simpa using hnd)).1 h'
        · exact hk h'

theorem getMsg_setKey_self {st : SchedStore} {k : String} {v : ScheduledMessage}
    (hfield : ∀ p ∈ st, p.2.id = p.1) (hid : v.id = k) :
    getScheduledMessage k (setKey k v st) = some v := by
  induction st with
  | nil => simp [setKey, getScheduledMessage, getScheduledMessages, hid]
  | cons p rest ih =>
    by_cases hk : p.1 = k
    · simp [setKey, hk, getScheduledMessage, getScheduledMessages, hid]
    · have hpid : p.2.id = p.1 := hfield p (List.mem_cons_self _ _)
      have hne : ¬ (p.2.id == k) = true := by
        simp [hpid, hk]
      have ihr := ih (fun q hq => hfield q (List.mem_cons_of_mem _ hq))
      simp only [setKey, if_neg hk, getScheduledMessage, getScheduledMessages,
        List.map_cons, List.find?_cons] at ihr ⊢
      simp [hne] at ihr ⊢
      exact ihr

theorem getMsg_setKey_ne {st : SchedStore} {k j : String} {v : ScheduledMessage}
    (hfield : ∀ p ∈ st, p.2.id = p.1) (hvj : v.id ≠ j) (hne : j ≠ k) :
    getScheduledMessage j (setKey k v st) = getScheduledMessage j st := by
  induction st with
  | nil =>
    have : ¬ (v.id == j) = true := by simpa using hvj
    simp [setKey, getScheduledMessage, getScheduledMessages, this]
  | cons p rest ih =>
    by_cases hk : p.1 = k
    · have hpid : p.2.id = p.1 := hfield p (List.mem_cons_self _ _)
      have h1 : ¬ (v.id == j) = true := by simpa using hvj
      have h2 : ¬ (p.2.id == j) = true := by
        simp [hpid, hk]; exact fun h => hne h.symm
      simp [setKey, hk, getScheduledMessage, getScheduledMessages, List.find?_cons, h1, h2]
    · have ihr := ih (fun q hq => hfield q (List.mem_cons_of_mem _ hq))
      by_cases hpj : (p.2.id == j) = true
      · simp [setKey, hk, getScheduledMessage, getScheduledMessages, List.find?_cons, hpj]
      · simp only [setKey, if_neg hk, getScheduledMessage, getScheduledMessages,
          List.map_cons, List.find?_cons] at ihr ⊢
        simp [hpj] at ihr ⊢
        exact ihr

theorem getMsg_id {st : SchedStore} {id : String} {m : ScheduledMessage}
    (h : getScheduledMessage id st = some m) : m.id = id := by
  have := List.find?_some h
  simpa using this

theorem getMsg_of_mem {st : SchedStore} {k : String} {v : ScheduledMessage}
    (hwf : WFStore st) (hmem : (k, v) ∈ st) :
    getScheduledMessage k st = some v := by
  induction st with
  | nil => simp at hmem
  | cons p rest ih =>
    obtain ⟨hfield, hnd⟩ := hwf
    have hwr : WFStore rest :=
      ⟨fun q hq => hfield q (List.mem_cons_of_mem _ hq), (List.nodup_cons.mp (by simpa using hnd)).2⟩
    rcases List.mem_cons.mp hmem with rfl | hmem'
    · have : v.id = k := hfield (k, v) (List.mem_cons_self _ _)
      simp [getScheduledMessage, getScheduledMessages, List.find?_cons, this]
    · have hkmem : k ∈ rest.map Prod.fst := by
        have : v.id = k := hfield (k, v) (List.mem_cons_of_mem _ hmem')
        exact List.mem_map.mpr ⟨(k, v), hmem', rfl⟩
      have hp1 : p.1 ∉ rest.map Prod.fst := (List.nodup_cons.mp (by simpa using hnd)).1
      have hpid : p.2.id = p.1 := hfield p (List.mem_cons_self _ _)
      have hne : ¬ (p.2.id == k) = true := by
        simp [hpid]
        intro h
        exact hp1 (h ▸ hkmem)
      have ihr := ih hwr hmem'
      simp only [getScheduledMessage, getScheduledMessages, List.map_cons,
        List.find?_cons] at ihr ⊢
      simp [hne] at ihr ⊢
      exact ihr

/-- Reduction of `cancelScheduledMessage` when the task is found. -/
theorem cancel_found {st : SchedStore} {ts : List String} {id : String}
    {m : ScheduledMessage} (hm : getScheduledMessage id st = some m) :
    cancelScheduledMessage id ⟨st, ts⟩ =
      (true, ⟨setKey id { m with status := MsgStatus.cancelled } st, removeTask id ts⟩) := by
  simp [cancelScheduledMessage, hm]

/-- Reduction of `cancelScheduledMessage` when the task is absent. -/
theorem cancel_absent {st : SchedStore} {ts : List String} {id : String}
    (hm : getScheduledMessage id st = none) :
    cancelScheduledMessage id ⟨st, ts⟩ = (false, ⟨st, ts⟩) := by
  simp [cancelScheduledMessage, hm]

/-- Reduction of `updateScheduledMessage` when the task is found: whether or
not the schedule time changes, the call returns true and persists the merged
record. -/
theorem update_found {st : SchedStore} {ts : List String} {id : String}
    {m : ScheduledMessage} {u : MsgUpdates} {now : Nat}
    (hm : getScheduledMessage id st = some m) :
    (updateScheduledMessage id u now ⟨st, ts⟩).1 = true ∧
    (updateScheduledMessage id u now ⟨st, ts⟩).2.1.store =
      setKey id (applyUpdates m u) st := by
  unfold updateScheduledMessage
  rw [hm]
  by_cases hc : (match u.scheduledTime with
      | some t => !(t == m.scheduledTime)
      | none => false) = true
  · simp only [hc, if_pos rfl]
    unfold scheduleSingleMessage
    by_cases hd : (applyUpdates m u).scheduledTime ≤ now <;> simp [hd]
  · simp only [Bool.not_eq_true] at hc
    simp [hc]

/-- Concrete task in the terminal state `sent`, used by counterexamples. -/
def exSentTask : ScheduledMessage :=
  { id := "t1", jid := "jid1", content := "hello", scheduledTime := 1000,
    status := MsgStatus.sent, retryCount := 1, maxRetries := 3 }

/-- Concrete fresh pending task, used by counterexamples. -/
def exPendingTask : ScheduledMessage :=
  { id := "t2", jid := "jid2", content := "hi", scheduledTime := 1000,
    status := MsgStatus.pending, retryCount := 0, maxRetries := 3 }

/-- Claim C1 counterexample: the task `t1` is in the terminal state `sent`,
yet `cancelScheduledMessage` returns true and moves it to `cancelled`. -/
theorem C1_cex :
    exSentTask.status = MsgStatus.sent ∧
    (cancelScheduledMessage "t1" ⟨[("t1", exSentTask)], []⟩).1 = true ∧
    getScheduledMessage "t1"
        (cancelScheduledMessage "t1" ⟨[("t1", exSentTask)], []⟩).2.store =
      some { exSentTask with status := MsgStatus.cancelled } ∧
    MsgStatus.cancelled ≠ MsgStatus.sent := by decide

/-- Claim C1 (amended): `cancelScheduledMessage` overwrites the status of any
stored task with `cancelled` regardless of its current status, terminal states
included, and `updateScheduledMessage` applies its updates (here: updates that
do not rewrite the id field) regardless of the current status; in both cases
every other stored task is left unchanged. -/
theorem C1_terminal_not_preserved (st : SchedStore) (ts : List String)
    (id : String) (m : ScheduledMessage) (hwf : WFStore st)
    (hm : getScheduledMessage id st = some m) :
    ((cancelScheduledMessage id ⟨st, ts⟩).1 = true ∧
      getScheduledMessage id (cancelScheduledMessage id ⟨st, ts⟩).2.store =
        some { m with status := MsgStatus.cancelled }) ∧
    (∀ u now, u.id = none →
      (updateScheduledMessage id u now ⟨st, ts⟩).1 = true ∧
      getScheduledMessage id (updateScheduledMessage id u now ⟨st, ts⟩).2.1.store =
        some (applyUpdates m u)) ∧
    (∀ j, j ≠ id →
      getScheduledMessage j (cancelScheduledMessage id ⟨st, ts⟩).2.store =
        getScheduledMessage j st ∧
      ∀ u now, u.id = none →
        getScheduledMessage j (updateScheduledMessage id u now ⟨st, ts⟩).2.1.store =
          getScheduledMessage j st) := by
  have hid : m.id = id := getMsg_id hm
  refine ⟨?_, ?_, ?_⟩
  · rw [cancel_found hm]
    exact ⟨rfl, getMsg_setKey_self hwf.1 (by simpa using hid)⟩
  · intro u now hu
    obtain ⟨h1, h2⟩ := @update_found st ts id m u now hm
    refine ⟨h1, ?_⟩
    rw [h2]
    exact getMsg_setKey_self hwf.1 (by simp [applyUpdates, hu, hid])
  · intro j hj
    constructor
    · rw [cancel_found hm]
      exact getMsg_setKey_ne hwf.1 (by simp [hid]; exact fun h => hj h.symm) hj
    · intro u now hu
      rw [(@update_found st ts id m u now hm).2]
      exact getMsg_setKey_ne hwf.1
        (by simp [applyUpdates, hu, hid]; exact fun h => hj h.symm) hj

/-- Claim C1 witness: the amended theorem applied to a one-task store holding
a `sent` task. -/
theorem C1_witness :
    WFStore [("t1", exSentTask)] ∧
    getScheduledMessage "t1" [("t1", exSentTask)] = some exSentTask ∧
    (cancelScheduledMessage "t1" ⟨[("t1", exSentTask)], ["t1"]⟩).1 = true ∧
    getScheduledMessage "t1"
        (cancelScheduledMessage "t1" ⟨[("t1", exSentTask)], ["t1"]⟩).2.store =
      some { exSentTask with status := MsgStatus.cancelled } :=
  ⟨by decide, by decide,
   (C1_terminal_not_preserved [("t1", exSentTask)] ["t1"] "t1" exSentTask
      (by decide) (by decide)).1.1,
   (C1_terminal_not_preserved [("t1", exSentTask)] ["t1"] "t1" exSentTask
      (by decide) (by decide)).1.2⟩

/-- Claim C2 counterexample: cancelling the pending task `t2` returns true and
marks it `cancelled`; a second cancel of the now-terminal task returns true
again, contradicting both `returns false when already terminal` and `returns
true exactly once`. -/
theorem C2_cex :
    exPendingTask.status = MsgStatus.pending ∧
    (cancelScheduledMessage "t2" ⟨[("t2", exPendingTask)], ["t2"]⟩).1 = true ∧
    (getScheduledMessage "t2"
        (cancelScheduledMessage "t2" ⟨[("t2", exPendingTask)], ["t2"]⟩).2.store).map
      (fun m => m.status) = some MsgStatus.cancelled ∧
    (cancelScheduledMessage "t2"
        (cancelScheduledMessage "t2" ⟨[("t2", exPendingTask)], ["t2"]⟩).2).1 = true := by
  decide

/-- Claim C2 (amended): cancel of a stored task returns true and marks the
task `cancelled` exactly when the task is present, regardless of its status,
so repeated cancels keep returning true; it returns false only when the task
is absent; and after a cancel no delivery attempt occurs for that task id:
any later attempt cycle for it aborts without invoking the gateway and
without changing the state. -/
theorem C2_cancel_present (st : SchedStore) (ts : List String) (id : String)
    (hwf : WFStore st) :
    (∀ m, getScheduledMessage id st = some m →
      (cancelScheduledMessage id ⟨st, ts⟩).1 = true ∧
      getScheduledMessage id (cancelScheduledMessage id ⟨st, ts⟩).2.store =
        some { m with status := MsgStatus.cancelled } ∧
      (cancelScheduledMessage id (cancelScheduledMessage id ⟨st, ts⟩).2).1 = true ∧
      (∀ now gw, processScheduledMessage now gw id (cancelScheduledMessage id ⟨st, ts⟩).2 =
        ((cancelScheduledMessage id ⟨st, ts⟩).2, []))) ∧
    (getScheduledMessage id st = none →
      cancelScheduledMessage id ⟨st, ts⟩ = (false, ⟨st, ts⟩)) := by
  constructor
  · intro m hm
    have hid : m.id = id := getMsg_id hm
    have hcancel := @cancel_found st ts id m hm
    have hlook : getScheduledMessage id (setKey id { m with status := MsgStatus.cancelled } st) =
        some { m with status := MsgStatus.cancelled } :=
      getMsg_setKey_self hwf.1 (by simpa using hid)
    refine ⟨by rw [hcancel], by rw [hcancel]; exact hlook, ?_, ?_⟩
    · rw [hcancel]
      rw [@cancel_found _ (removeTask id ts) _ _ hlook]
    · intro now gw
      rw [hcancel]
      simp [processScheduledMessage, hlook]
  · intro hm
    exact cancel_absent hm

/-- Claim C2 witness: the amended theorem applied to a one-task store holding
a pending task. -/
theorem C2_witness :
    WFStore [("t2", exPendingTask)] ∧
    getScheduledMessage "t2" [("t2", exPendingTask)] = some exPendingTask ∧
    (cancelScheduledMessage "t2" ⟨[("t2", exPendingTask)], ["t2"]⟩).1 = true ∧
    (∀ now gw,
      processScheduledMessage now gw "t2"
          (cancelScheduledMessage "t2" ⟨[("t2", exPendingTask)], ["t2"]⟩).2 =
        ((cancelScheduledMessage "t2" ⟨[("t2", exPendingTask)], ["t2"]⟩).2, [])) :=
  ⟨by decide, by decide,
   ((C2_cancel_present [("t2", exPendingTask)] ["t2"] "t2" (by decide)).1
      exPendingTask (by decide)).1,
   ((C2_cancel_present [("t2", exPendingTask)] ["t2"] "t2" (by decide)).1
      exPendingTask (by decide)).2.2.2⟩

/-- Claim C4: `scheduleMessage` throws exactly when the requested instant is
not strictly after the current instant; on the throwing path the store is
unchanged and nothing else happens; on the success path the task is persisted
with status `pending` and retryCount 0, an immediate query returns it, and a
timer is armed for the requested instant. -/
theorem C4_schedule_validation (jid content id : String) (t now : Nat)
    (ro : Option Nat) (st : SchedStore) (ts : List String) (hwf : WFStore st) :
    ((∃ e, (scheduleMessageRun jid content id t now ro ⟨st, ts⟩).1 = .error e) ↔ t ≤ now) ∧
    (t ≤ now → scheduleMessageRun jid content id t now ro ⟨st, ts⟩ =
      (.error "Schedule time must be in the future", ⟨st, ts⟩, [])) ∧
    (now < t →
      (scheduleMessageRun jid content id t now ro ⟨st, ts⟩).1 = .ok id ∧
      getScheduledMessage id (scheduleMessageRun jid content id t now ro ⟨st, ts⟩).2.1.store =
        some { id := id, jid := jid, content := content, scheduledTime := t,
               status := MsgStatus.pending, retryCount := 0,
               maxRetries := retriesOrDefault ro } ∧
      (scheduleMessageRun jid content id t now ro ⟨st, ts⟩).2.2 =
        [Event.timerArmed id t]) := by
  by_cases h : t ≤ now
  · refine ⟨⟨fun _ => h, fun _ => ⟨"Schedule time must be in the future", ?_⟩⟩,
      fun _ => ?_, fun h' => absurd h (by omega)⟩
    · simp [scheduleMessageRun, scheduleMessage, h]
    · simp [scheduleMessageRun, scheduleMessage, h]
  · have h' : now < t := by omega
    have hnot : ¬ t ≤ now := h
    have hrun : scheduleMessageRun jid content id t now ro ⟨st, ts⟩ =
        (.ok id,
         ⟨setKey id { id := id, jid := jid, content := content, scheduledTime := t,
                      status := MsgStatus.pending, retryCount := 0,
                      maxRetries := retriesOrDefault ro } st, addTask id ts⟩,
         [Event.timerArmed id t]) := by
      simp [scheduleMessageRun, scheduleMessage, scheduleSingleMessage, hnot]
    refine ⟨⟨fun ⟨e, he⟩ => ?_, fun hc => absurd hc hnot⟩, fun hc => absurd hc hnot, fun _ => ?_⟩
    · rw [hrun] at he
      exact absurd he (by simp)
    · rw [hrun]
      exact ⟨rfl, getMsg_setKey_self hwf.1 rfl, rfl⟩

/-- Claim C4 witness: scheduling into the future on an empty store. -/
theorem C4_witness :
    WFStore [] ∧ (5 : Nat) < 10 ∧
    (scheduleMessageRun "j" "c" "m1" 10 5 none ⟨[], []⟩).1 = .ok "m1" ∧
    getScheduledMessage "m1" (scheduleMessageRun "j" "c" "m1" 10 5 none ⟨[], []⟩).2.1.store =
      some { id := "m1", jid := "j", content := "c", scheduledTime := 10,
             status := MsgStatus.pending, retryCount := 0,
             maxRetries := retriesOrDefault none } :=
  ⟨wfStore_nil, by decide,
   ((C4_schedule_validation "j" "c" "m1" 10 5 none [] [] wfStore_nil).2.2 (by decide)).1,
   ((C4_schedule_validation "j" "c" "m1" 10 5 none [] [] wfStore_nil).2.2 (by decide)).2.1⟩

/-- Claim C6: at reference instant 2024-01-01T10:00:00Z (epoch ms
1704103200000) with the valid pattern `0 9 * * *`, `getNextRunTime` returns
the fixed placeholder `now + 1 hour` = 2024-01-01T11:00:00Z (1704106800000),
not the next cron occurrence 2024-01-02T09:00:00Z (1704186000000): the
pattern is never evaluated. -/
theorem C6_nextRun_placeholder :
    getNextRunTime true 1704103200000 = 1704106800000 ∧
    (1704106800000 : Nat) ≠ 1704186000000 := by decide

/-- Claim C7: with rate limiting enabled and the fixed window exhausted
(1 request already counted against a limit of 1, inside the window),
`checkLimit` returns a denial carrying `retryAfter`, yet
`LadybugBaileys.sendMessage` discards that result object: the delivery
gateway is invoked anyway and the call reports success. -/
theorem C7_denial_discarded :
    (checkLimit true 1 60000 5000 ⟨1, 10000⟩).1 =
      { allowed := false, remaining := 0, resetTime := 10000, retryAfter := some 5 } ∧
    (ladybugSendMessage true true true 1 60000 5000 ⟨1, 10000⟩ false).1 =
      { success := true, gatewayInvoked := true } := by decide

/-- Claim C8 counterexample: the same due pending task (retryCount 0,
maxRetries 3, so retries remain) is processed once with a thrown gateway
error and once with a returned failure result: the thrown error marks the
task `failed` immediately with no retry scheduled, while the returned
failure reschedules it as `pending` with backoff, so the two paths are not
treated alike. -/
theorem C8_cex :
    (processScheduledMessage 1000 GatewayResult.thrown "t2"
        ⟨[("t2", exPendingTask)], ["t2"]⟩).1.store =
      [("t2", { exPendingTask with status := MsgStatus.failed, retryCount := 1 })] ∧
    (processScheduledMessage 1000 GatewayResult.failure "t2"
        ⟨[("t2", exPendingTask)], ["t2"]⟩).1.store =
      [("t2", { exPendingTask with
          status := MsgStatus.pending, retryCount := 1, scheduledTime := 301000 })] ∧
    (1 : Nat) < effMaxRetries exPendingTask ∧
    MsgStatus.failed ≠ MsgStatus.pending := by decide

/-- Claim C8 (amended): a thrown error from the Delivery Gateway during an
attempt cycle is caught inside the cycle (the cycle returns normally) and
leaves every other stored task untouched, but it does not pass through the
Retry Policy: the task is marked `failed` with its retry counter incremented
even when retries remain, whereas a returned Failure with retries remaining
reschedules the task as `pending` with stepped backoff. -/
theorem C8_thrown_not_retried (now : Nat) (id : String) (m : ScheduledMessage)
    (st : SchedStore) (ts : List String) (hwf : WFStore st)
    (hm : getScheduledMessage id st = some m)
    (hpend : m.status = MsgStatus.pending) (hdue : m.scheduledTime ≤ now) :
    processScheduledMessage now GatewayResult.thrown id ⟨st, ts⟩ =
      (⟨setKey id { m with status := MsgStatus.failed, retryCount := m.retryCount + 1 } st, ts⟩,
       [Event.deliveryAttempt id]) ∧
    (∀ j, j ≠ id →
      getScheduledMessage j
          (processScheduledMessage now GatewayResult.thrown id ⟨st, ts⟩).1.store =
        getScheduledMessage j st) ∧
    (m.retryCount + 1 < effMaxRetries m →
      (processScheduledMessage now GatewayResult.failure id ⟨st, ts⟩).1.store =
        setKey id { m with
          status := MsgStatus.pending, retryCount := m.retryCount + 1,
          scheduledTime := now + (m.retryCount + 1) * 300000 } st) := by
  have hid : m.id = id := getMsg_id hm
  have hnlt : ¬ now < m.scheduledTime := by omega
  have hthrown : processScheduledMessage now GatewayResult.thrown id ⟨st, ts⟩ =
      (⟨setKey id { m with status := MsgStatus.failed, retryCount := m.retryCount + 1 } st, ts⟩,
       [Event.deliveryAttempt id]) := by
    simp [processScheduledMessage, hm, hpend, hnlt, sendScheduledMessage]
  refine ⟨hthrown, ?_, ?_⟩
  · intro j hj
    rw [hthrown]
    exact getMsg_setKey_ne hwf.1 (by simp [hid]; exact fun h => hj h.symm) hj
  · intro hlt
    simp [processScheduledMessage, hm, hpend, hnlt, sendScheduledMessage, hlt]

/-- Claim C8 witness: the amended theorem applied to the one-task store with
a due pending task. -/
theorem C8_witness :
    WFStore [("t2", exPendingTask)] ∧
    getScheduledMessage "t2" [("t2", exPendingTask)] = some exPendingTask ∧
    exPendingTask.status = MsgStatus.pending ∧ exPendingTask.scheduledTime ≤ 1000 ∧
    processScheduledMessage 1000 GatewayResult.thrown "t2" ⟨[("t2", exPendingTask)], ["t2"]⟩ =
      (⟨setKey "t2" { exPendingTask with status := MsgStatus.failed, retryCount := 1 }
          [("t2", exPendingTask)], ["t2"]⟩,
       [Event.deliveryAttempt "t2"]) :=
  ⟨by decide, by decide, by decide, by decide,
   (C8_thrown_not_retried 1000 "t2" exPendingTask [("t2", exPendingTask)] ["t2"]
      (by decide) (by decide) (by decide) (by decide)).1⟩

/-- Claim C10 counterexample: `scheduleMessageWithConditions` returns id
`cond1` without storing anything, and when the condition is met the
immediate `scheduleMessage` call (schedule time = the current instant) is
rejected by the strict-future validation, so no message is stored under the
fresh id either: the store stays empty. -/
theorem C10_cex :
    (scheduleMessageWithConditions "cond1" ⟨[], []⟩).2.store = [] ∧
    getScheduledMessage "cond1" (scheduleMessageWithConditions "cond1" ⟨[], []⟩).2.store =
      none ∧
    (conditionMetStep "j" "c" "fresh1" none 5000 5000
        (scheduleMessageWithConditions "cond1" ⟨[], []⟩).2).1.store = [] ∧
    getScheduledMessage "fresh1"
        (conditionMetStep "j" "c" "fresh1" none 5000 5000
          (scheduleMessageWithConditions "cond1" ⟨[], []⟩).2).1.store = none := by decide

/-- Claim C10 (amended): the id returned by `scheduleMessageWithConditions`
is never written to the store and the call leaves storage unchanged, so any
query against the stored state is unaffected; however, when the condition
becomes true the attempted schedule uses the current instant as due time,
which `scheduleMessage` rejects (strict-future validation, given that the
clock has not gone backwards), so no message is stored at that point either
-- under the fresh id or any other. -/
theorem C10_condition_schedule_rejected (id : String) (s : SchedState) :
    ((scheduleMessageWithConditions id s).1 = id ∧
     (scheduleMessageWithConditions id s).2.store = s.store) ∧
    (∀ j, getScheduledMessage j (scheduleMessageWithConditions id s).2.store =
      getScheduledMessage j s.store) ∧
    (∀ jid content fid ro condTime now, condTime ≤ now →
      conditionMetStep jid content fid ro condTime now s = (s, [])) := by
  refine ⟨⟨rfl, rfl⟩, fun j => rfl, ?_⟩
  intro jid content fid ro ct now h
  simp [conditionMetStep, scheduleMessage, h]

/-- Claim C10 witness: the amended theorem applied to a one-task store at a
same-instant  condition trigger. -/
theorem C10_witness :
    (5000 : Nat) ≤ 5000 ∧
    (scheduleMessageWithConditions "cond1" ⟨[("t1", exSentTask)], []⟩).2.store =
      [("t1", exSentTask)] ∧
    conditionMetStep "j" "c" "fresh1" none 5000 5000 ⟨[("t1", exSentTask)], []⟩ =
      (⟨[("t1", exSentTask)], []⟩, []) :=
  ⟨by decide,
   (C10_condition_schedule_rejected "cond1" ⟨[("t1", exSentTask)], []⟩).1.2,
   (C10_condition_schedule_rejected "cond1" ⟨[("t1", exSentTask)], []⟩).2.2
     "j" "c" "fresh1" none 5000 5000 (by decide)⟩

/-- Running total of the stepped retry backoff: failure number k reschedules
k * 5 minutes ahead, so after k failures the schedule time has advanced by
300000 * (1 + 2 + ... + k) milliseconds in total. -/
def backoffTotal : Nat → Nat
  | 0 => 0
  | Nat.succ k => backoffTotal k + (k + 1) * 300000

/-- The record persisted by `scheduleMessage` for a fresh task. -/
def freshTask (jid content id : String) (t0 maxR : Nat) : ScheduledMessage :=
  { id := id, jid := jid, content := content, scheduledTime := t0,
    status := MsgStatus.pending, retryCount := 0, maxRetries := maxR }

/-- Expected record after k failed delivery attempts while retries remain. -/
def retryTask (m0 : ScheduledMessage) (t0 k : Nat) : ScheduledMessage :=
  { m0 with retryCount := k, scheduledTime := t0 + backoffTotal k }

/-- Due instant of a stored task (0 when absent). -/
def dueNow (id : String) (s : SchedState) : Nat :=
  ((getScheduledMessage id s.store).map (fun m => m.scheduledTime)).getD 0

/-- Scenario driver for the all-attempts-fail scenario: k attempt cycles,
each run exactly at the due instant of the task, with the gateway returning
a failure result every time. -/
def failSteps (id : String) : Nat → SchedState → SchedState × List Event
  | 0, s => (s, [])
  | Nat.succ k, s =>
    let r1 := failSteps id k s
    let r2 := processScheduledMessage (dueNow id r1.1) GatewayResult.failure id r1.1
    (r2.1, r1.2 ++ r2.2)

/-- Expected event trace of `failSteps`: every failing attempt invokes the
gateway once, and a retry timer is armed while retries remain. -/
def failEvents (id : String) (t0 maxR : Nat) : Nat → List Event
  | 0 => []
  | Nat.succ k =>
    failEvents id t0 maxR k ++
      (if k + 1 < maxR then
        [Event.deliveryAttempt id, Event.timerArmed id (t0 + backoffTotal (k + 1))]
      else [Event.deliveryAttempt id])

/-- Number of gateway invocations in an event list. -/
def countAttempts (evs : List Event) : Nat :=
  (evs.filter (fun e => match e with
    | Event.deliveryAttempt _ => true
    | _ => false)).length

theorem countAttempts_append (l1 l2 : List Event) :
    countAttempts (l1 ++ l2) = countAttempts l1 + countAttempts l2 := by
  simp [countAttempts, List.filter_append]

theorem countAttempts_failEvents (id : String) (t0 maxR : Nat) :
    ∀ k, countAttempts (failEvents id t0 maxR k) = k := by
  intro k
  induction k with
  | zero => simp [failEvents, countAttempts]
  | succ k ih =>
    rw [failEvents, countAttempts_append, ih]
    by_cases h : k + 1 < maxR <;> simp [h, countAttempts]

/-- Closed form of the all-failures scenario: after k ≤ maxRetries failing
attempt cycles the stored task is the expected retry record while retries
remain, and the failed record at k = maxRetries; the timer-handle map is
emptied by the first failure and the events are exactly `failEvents`. -/
theorem failSteps_closed (jid content id : String) (t0 maxR : Nat)
    (hmax : 1 ≤ maxR) :
    ∀ k, k ≤ maxR →
      failSteps id k ⟨[(id, freshTask jid content id t0 maxR)], [id]⟩ =
        (⟨[(id, if k < maxR then retryTask (freshTask jid content id t0 maxR) t0 k
            else { freshTask jid content id t0 maxR with
              status := MsgStatus.failed, retryCount := k,
              scheduledTime := t0 + backoffTotal (k - 1) })],
          if k = 0 then [id] else []⟩,
         failEvents id t0 maxR k) := by
  intro k
  induction k with
  | zero =>
    intro _
    have h0 : 0 < maxR := hmax
    simp [failSteps, failEvents, retryTask, freshTask, backoffTotal, h0]
  | succ k ih =>
    intro hk
    have hklt : k < maxR := by omega
    have hmne : maxR ≠ 0 := by omega
    have hstep := ih (by omega)
    rw [failSteps, hstep]
    simp only [if_pos hklt]
    by_cases hsucc : k + 1 < maxR
    · have hnotdue : ¬ (t0 + backoffTotal k + (k + 1) * 300000 ≤ t0 + backoffTotal k) := by
        omega
      rcases Nat.eq_zero_or_pos k with hk0 | hk0
      · subst hk0
        have hs1 : 1 < maxR := by omega
        simp [dueNow, processScheduledMessage, getScheduledMessage,
          getScheduledMessages, sendScheduledMessage, scheduleSingleMessage,
          effMaxRetries, retryTask, freshTask, setKey, addTask, removeTask,
          failEvents, backoffTotal, hmne, hs1, hnotdue, Nat.add_assoc]
      · have hk0' : k ≠ 0 := by omega
        simp [hk0', dueNow, processScheduledMessage, getScheduledMessage,
          getScheduledMessages, sendScheduledMessage, scheduleSingleMessage,
          effMaxRetries, retryTask, freshTask, setKey, addTask, removeTask,
          failEvents, backoffTotal, hmne, hsucc, hnotdue, Nat.add_assoc]
    · rcases Nat.eq_zero_or_pos k with hk0 | hk0
      · subst hk0
        have hs1 : ¬ (1 < maxR) := by omega
        simp [dueNow, processScheduledMessage, getScheduledMessage,
          getScheduledMessages, sendScheduledMessage, scheduleSingleMessage,
          effMaxRetries, retryTask, freshTask, setKey, addTask, removeTask,
          failEvents, backoffTotal, hmne, hs1, Nat.add_assoc]
      · have hk0' : k ≠ 0 := by omega
        simp [hk0', dueNow, processScheduledMessage, getScheduledMessage,
          getScheduledMessages, sendScheduledMessage, scheduleSingleMessage,
          effMaxRetries, retryTask, freshTask, setKey, addTask, removeTask,
          failEvents, backoffTotal, hmne, hsucc, Nat.add_assoc]

/-- Claim C3: scheduling a fresh task and failing every delivery attempt: on
each failure while the incremented retry counter is still below maxRetries,
the task stays `pending` with retryCount incremented by 1, its schedule time
advanced by retryCount * 5 minutes from the attempt instant (stepped backoff
5/10/15 minutes), and a retry timer armed; when the incremented counter
reaches maxRetries the task transitions to `failed` with its schedule time
unchanged; hence after exactly maxRetries failing attempts the task is
`failed` with retryCount = maxRetries, and a further attempt cycle is a
no-op. -/
theorem C3_retry_policy (jid content id : String) (t0 now0 maxR : Nat)
    (hnow : now0 < t0) (hmax : 1 ≤ maxR) :
    scheduleMessage jid content id t0 now0 (some maxR) ⟨[], []⟩ =
      .ok (id, ⟨[(id, freshTask jid content id t0 maxR)], [id]⟩,
        [Event.timerArmed id t0]) ∧
    (∀ k, k < maxR →
      (failSteps id k ⟨[(id, freshTask jid content id t0 maxR)], [id]⟩).1.store =
        [(id, retryTask (freshTask jid content id t0 maxR) t0 k)] ∧
      (retryTask (freshTask jid content id t0 maxR) t0 k).status = MsgStatus.pending ∧
      (retryTask (freshTask jid content id t0 maxR) t0 k).retryCount = k) ∧
    (∀ k, k + 1 < maxR →
      (retryTask (freshTask jid content id t0 maxR) t0 (k + 1)).scheduledTime =
        (retryTask (freshTask jid content id t0 maxR) t0 k).scheduledTime
          + (k + 1) * 300000) ∧
    (∀ k, k ≤ maxR →
      (failSteps id k ⟨[(id, freshTask jid content id t0 maxR)], [id]⟩).2 =
        failEvents id t0 maxR k) ∧
    ((failSteps id maxR ⟨[(id, freshTask jid content id t0 maxR)], [id]⟩).1.store =
      [(id, { freshTask jid content id t0 maxR with
          status := MsgStatus.failed, retryCount := maxR,
          scheduledTime := t0 + backoffTotal (maxR - 1) })] ∧
      countAttempts
        (failSteps id maxR ⟨[(id, freshTask jid content id t0 maxR)], [id]⟩).2 = maxR) ∧
    (∀ gw now,
      processScheduledMessage now gw id
          (failSteps id maxR ⟨[(id, freshTask jid content id t0 maxR)], [id]⟩).1 =
        ((failSteps id maxR ⟨[(id, freshTask jid content id t0 maxR)], [id]⟩).1, [])) := by
  refine ⟨?_, ?_, ?_, ?_, ⟨?_, ?_⟩, ?_⟩
  · have hn : ¬ t0 ≤ now0 := by omega
    obtain ⟨r, rfl⟩ : ∃ r, maxR = r + 1 := ⟨maxR - 1, by omega⟩
    simp [scheduleMessage, scheduleSingleMessage, freshTask, retriesOrDefault, hn,
      setKey, addTask, removeTask]
  · intro k hkm
    rw [failSteps_closed jid content id t0 maxR hmax k (by omega)]
    simp [if_pos hkm, retryTask, freshTask]
  · intro k _
    simp [retryTask, freshTask, backoffTotal]
    omega
  · intro k hkm
    rw [failSteps_closed jid content id t0 maxR hmax k hkm]
  · rw [failSteps_closed jid content id t0 maxR hmax maxR le_rfl]
    simp
  · rw [failSteps_closed jid content id t0 maxR hmax maxR le_rfl]
    simp [countAttempts_failEvents]
  · intro gw now
    rw [failSteps_closed jid content id t0 maxR hmax maxR le_rfl]
    simp [processScheduledMessage, getScheduledMessage, getScheduledMessages, freshTask]

/-- Claim C3 witness: maxRetries 2, both attempts failing: final status
`failed`, retryCount 2, exactly two gateway invocations. -/
theorem C3_witness :
    (0 : Nat) < 1000000 ∧ (1 : Nat) ≤ 2 ∧
    (failSteps "r1" 2 ⟨[("r1", freshTask "jm" "cm" "r1" 1000000 2)], ["r1"]⟩).1.store =
      [("r1", { freshTask "jm" "cm" "r1" 1000000 2 with
          status := MsgStatus.failed, retryCount := 2,
          scheduledTime := 1000000 + backoffTotal 1 })] ∧
    countAttempts
      (failSteps "r1" 2 ⟨[("r1", freshTask "jm" "cm" "r1" 1000000 2)], ["r1"]⟩).2 = 2 :=
  ⟨by decide, by decide,
   (C3_retry_policy "jm" "cm" "r1" 1000000 0 2 (by decide) (by decide)).2.2.2.2.1.1,
   (C3_retry_policy "jm" "cm" "r1" 1000000 0 2 (by decide) (by decide)).2.2.2.2.1.2⟩

/-- Number of gateway invocations for a particular task id in an event list. -/
def countAttemptsFor (j : String) (evs : List Event) : Nat :=
  (evs.filter (fun e => match e with
    | Event.deliveryAttempt i => i == j
    | _ => false)).length

theorem countAttemptsFor_append (j : String) (l1 l2 : List Event) :
    countAttemptsFor j (l1 ++ l2) = countAttemptsFor j l1 + countAttemptsFor j l2 := by
  simp [countAttemptsFor, List.filter_append]

theorem countAttemptsFor_armed_map (j : String) (msgs : List ScheduledMessage) :
    countAttemptsFor j (msgs.map (fun m => Event.timerArmed m.id m.scheduledTime)) = 0 := by
  simp [countAttemptsFor, List.filter_map]

/-- The start-up loader never touches the store. -/
theorem loadFold_store (now : Nat) (msgs : List ScheduledMessage) :
    ∀ (s : SchedState) (evs0 : List Event),
      ((msgs.foldl (fun acc m =>
        if now < m.scheduledTime then
          let r := scheduleSingleMessage now m.id m acc.1.tasks
          (⟨acc.1.store, r.1⟩, acc.2 ++ r.2)
        else acc) (s, evs0)).1.store = s.store) := by
  induction msgs with
  | nil => intro s evs0; rfl
  | cons m rest ih =>
    intro s evs0
    rw [List.foldl_cons]
    by_cases h : now < m.scheduledTime
    · simp only [if_pos h]
      exact ih _ _
    · simp only [if_neg h]
      exact ih _ _

/-- The start-up loader emits exactly one timer-arming event per pending task
whose due instant is still in the future, and nothing else. -/
theorem loadFold_events (now : Nat) (msgs : List ScheduledMessage) :
    ∀ (s : SchedState) (evs0 : List Event),
      ((msgs.foldl (fun acc m =>
        if now < m.scheduledTime then
          let r := scheduleSingleMessage now m.id m acc.1.tasks
          (⟨acc.1.store, r.1⟩, acc.2 ++ r.2)
        else acc) (s, evs0)).2 =
      evs0 ++ (msgs.filter (fun m => decide (now < m.scheduledTime))).map
        (fun m => Event.timerArmed m.id m.scheduledTime)) := by
  induction msgs with
  | nil => intro s evs0; simp
  | cons m rest ih =>
    intro s evs0
    rw [List.foldl_cons]
    by_cases h : now < m.scheduledTime
    · have harm : scheduleSingleMessage now m.id m s.tasks =
          (addTask m.id s.tasks, [Event.timerArmed m.id m.scheduledTime]) := by
        simp [scheduleSingleMessage]
        omega
      simp only [if_pos h, harm]
      rw [ih _ _]
      simp [List.filter_cons, h]
    · simp only [if_neg h]
      rw [ih _ _]
      simp [List.filter_cons, h]

/-- Under well-formedness, every listed value is stored under its own id. -/
theorem mem_store_of_mem_values {st : SchedStore} {m : ScheduledMessage}
    (hfield : ∀ p ∈ st, p.2.id = p.1) (hm : m ∈ getScheduledMessages st) :
    (m.id, m) ∈ st := by
  obtain ⟨p, hp, hpm⟩ := List.mem_map.mp hm
  have := hfield p hp
  have hpair : p = (m.id, m) := by
    cases p
    simp_all
  rw [← hpair]
  exact hp

theorem values_ids_nodup {st : SchedStore} (hwf : WFStore st) :
    ((getScheduledMessages st).map (fun m => m.id)).Nodup := by
  have hcongr : (getScheduledMessages st).map (fun m => m.id) = st.map Prod.fst := by
    simp only [getScheduledMessages, List.map_map]
    exact List.map_congr_left (fun p hp => hwf.1 p hp)
  rw [hcongr]
  exact hwf.2

/-- Shape of one due attempt cycle for a found pending task: some record with
the same id is written back under the same key, and the events contain
exactly one gateway invocation, for this task id. -/
theorem process_due_shape (now : Nat) (gw : GatewayResult) (id : String)
    (m : ScheduledMessage) (st : SchedStore) (ts : List String)
    (hm : getScheduledMessage id st = some m)
    (hpend : m.status = MsgStatus.pending) (hdue : m.scheduledTime ≤ now) :
    ∃ m' ts' evs, m'.id = m.id ∧
      processScheduledMessage now gw id ⟨st, ts⟩ = (⟨setKey id m' st, ts'⟩, evs) ∧
      (∀ j, countAttemptsFor j evs = if id == j then 1 else 0) := by
  have hnlt : ¬ now < m.scheduledTime := by omega
  have hone : ∀ j, countAttemptsFor j [Event.deliveryAttempt id] =
      if id == j then 1 else 0 := by
    intro j
    by_cases hj : (id == j) = true <;> simp [countAttemptsFor, List.filter_cons, hj]
  cases gw with
  | success =>
    refine ⟨{ m with status := MsgStatus.sent }, removeTask id ts,
      [Event.deliveryAttempt id], rfl, ?_, hone⟩
    simp [processScheduledMessage, hm, hpend, hnlt, sendScheduledMessage]
  | thrown =>
    refine ⟨{ m with status := MsgStatus.failed, retryCount := m.retryCount + 1 }, ts,
      [Event.deliveryAttempt id], rfl, ?_, ?_⟩
    · simp [processScheduledMessage, hm, hpend, hnlt, sendScheduledMessage]
    · exact hone
  | failure =>
    by_cases hrc : m.retryCount + 1 < effMaxRetries m
    · refine ⟨{ m with
          status := MsgStatus.pending, retryCount := m.retryCount + 1,
          scheduledTime := now + (m.retryCount + 1) * 300000 },
        removeTask id (addTask id ts),
        [Event.deliveryAttempt id,
         Event.timerArmed id (now + (m.retryCount + 1) * 300000)], rfl, ?_, ?_⟩
      · have hfut : ¬ (now + (m.retryCount + 1) * 300000 ≤ now) := by omega
        simp [processScheduledMessage, hm, hpend, hnlt, sendScheduledMessage, hrc,
          scheduleSingleMessage, hfut]
      · intro j
        by_cases hj : (id == j) = true <;>
          simp [countAttemptsFor, List.filter_cons, hj]
    · refine ⟨{ m with status := MsgStatus.failed, retryCount := m.retryCount + 1 },
        removeTask id ts, [Event.deliveryAttempt id], rfl, ?_, hone⟩
      simp [processScheduledMessage, hm, hpend, hnlt, sendScheduledMessage, hrc]

/-- Counting gateway invocations over the sweep fold: each snapshot task whose
due instant has elapsed is attempted exactly once, provided the snapshot
tasks are stored, pending, and have pairwise distinct ids. -/
theorem sweepFold_count (now : Nat) (gw : String → GatewayResult) (j : String) :
    ∀ (msgs : List ScheduledMessage) (s : SchedState) (evs0 : List Event),
      WFStore s.store →
      (∀ m ∈ msgs, getScheduledMessage m.id s.store = some m) →
      (∀ m ∈ msgs, m.status = MsgStatus.pending) →
      (msgs.map (fun m => m.id)).Nodup →
      countAttemptsFor j
          (msgs.foldl (fun acc m =>
            if m.scheduledTime ≤ now then
              let r := processScheduledMessage now (gw m.id) m.id acc.1
              (r.1, acc.2 ++ r.2)
            else acc) (s, evs0)).2 =
        countAttemptsFor j evs0 +
          (if ∃ m ∈ msgs, m.id = j ∧ m.scheduledTime ≤ now then 1 else 0) := by
  intro msgs
  induction msgs with
  | nil =>
    intro s evs0 _ _ _ _
    simp
  | cons m rest ih =>
    intro s evs0 hwf hlook hpend hnd
    have hndr : (rest.map (fun m => m.id)).Nodup := (List.nodup_cons.mp hnd).2
    have hmid : m.id ∉ rest.map (fun m => m.id) := (List.nodup_cons.mp hnd).1
    rw [List.foldl_cons]
    by_cases hdue : m.scheduledTime ≤ now
    · obtain ⟨m', ts', evs, hm'id, hproc, hcount⟩ :=
        process_due_shape now (gw m.id) m.id m s.store s.tasks
          (hlook m (List.mem_cons_self _ _)) (hpend m (List.mem_cons_self _ _)) hdue
      simp only [if_pos hdue, hproc]
      have hwf' : WFStore (setKey m.id m' s.store) := wfStore_setKey hwf hm'id
      have hlook' : ∀ m2 ∈ rest, getScheduledMessage m2.id (setKey m.id m' s.store) =
          some m2 := by
        intro m2 hm2
        have hne : m2.id ≠ m.id := by
          intro hcontra
          exact hmid (hcontra ▸ List.mem_map.mpr ⟨m2, hm2, rfl⟩)
        rw [getMsg_setKey_ne hwf.1 (by rw [hm'id]; exact fun h => hne h.symm) hne]
        exact hlook m2 (List.mem_cons_of_mem _ hm2)
      have hres := ih ⟨setKey m.id m' s.store, ts'⟩ (evs0 ++ evs) hwf' hlook'
        (fun m2 hm2 => hpend m2 (List.mem_cons_of_mem _ hm2)) hndr
      rw [hres, countAttemptsFor_append, hcount j]
      by_cases hj : m.id = j
      · have hnone : ¬ ∃ m2 ∈ rest, m2.id = j ∧ m2.scheduledTime ≤ now := by
          rintro ⟨m2, hm2, hm2j, _⟩
          exact hmid (by rw [← hj] at hm2j; exact hm2j ▸ List.mem_map.mpr ⟨m2, hm2, rfl⟩)
        have hall : ∃ m2 ∈ m :: rest, m2.id = j ∧ m2.scheduledTime ≤ now :=
          ⟨m, List.mem_cons_self _ _, hj, hdue⟩
        simp [hnone, hall, hj, hdue]
      · have hiff : (∃ m2 ∈ m :: rest, m2.id = j ∧ m2.scheduledTime ≤ now) ↔
            (∃ m2 ∈ rest, m2.id = j ∧ m2.scheduledTime ≤ now) := by
          constructor
          · rintro ⟨m2, hm2, hm2j, hm2d⟩
            rcases List.mem_cons.mp hm2 with rfl | hm2r
            · exact absurd hm2j hj
            · exact ⟨m2, hm2r, hm2j, hm2d⟩
          · rintro ⟨m2, hm2, hm2j, hm2d⟩
            exact ⟨m2, List.mem_cons_of_mem _ hm2, hm2j, hm2d⟩
        have hjb : ¬ (m.id == j) = true := by simpa using hj
        rw [if_congr hiff rfl rfl]
        simp [hjb]
    · simp only [if_neg hdue]
      have hres := ih s evs0 hwf
        (fun m2 hm2 => hlook m2 (List.mem_cons_of_mem _ hm2))
        (fun m2 hm2 => hpend m2 (List.mem_cons_of_mem _ hm2)) hndr
      rw [hres]
      have hiff : (∃ m2 ∈ m :: rest, m2.id = j ∧ m2.scheduledTime ≤ now) ↔
          (∃ m2 ∈ rest, m2.id = j ∧ m2.scheduledTime ≤ now) := by
        constructor
        · rintro ⟨m2, hm2, hm2j, hm2d⟩
          rcases List.mem_cons.mp hm2 with rfl | hm2r
          · exact absurd hm2d hdue
          · exact ⟨m2, hm2r, hm2j, hm2d⟩
        · rintro ⟨m2, hm2, hm2j, hm2d⟩
          exact ⟨m2, List.mem_cons_of_mem _ hm2, hm2j, hm2d⟩
      rw [if_congr hiff rfl rfl]

/-- Concrete future-due pending task. -/
def exFutureTask : ScheduledMessage :=
  { id := "f1", jid := "jid3", content := "yo", scheduledTime := 5000,
    status := MsgStatus.pending, retryCount := 0, maxRetries := 3 }

/-- Claim C5 counterexample: reinitialising against a store holding a single
pending task whose due instant (1000) has already elapsed at now = 2000
produces no attempt cycle and no timer at all: the loader skips overdue
tasks, so the task receives zero immediate attempt cycles, not one. -/
theorem C5_cex :
    exPendingTask.status = MsgStatus.pending ∧ exPendingTask.scheduledTime ≤ 2000 ∧
    initScheduler 2000 ⟨[("t2", exPendingTask)], []⟩ =
      (⟨[("t2", exPendingTask)], []⟩, []) := by decide

/-- Claim C5 (amended): after the scheduler is reinitialised against a task
store, pending tasks with future due instants have timers re-armed (one
arming event each, store untouched) while pending tasks whose due instant
has already elapsed receive zero attempt cycles at initialisation itself;
each elapsed pending task instead receives exactly one attempt cycle in a
run of the periodic sweep `processPendingMessages`. -/
theorem C5_reinit_behavior (now : Nat) (st : SchedStore) (ts : List String)
    (hwf : WFStore st) :
    (initScheduler now ⟨st, ts⟩).1.store = st ∧
    (initScheduler now ⟨st, ts⟩).2 =
      ((getPendingMessages st).filter (fun m => decide (now < m.scheduledTime))).map
        (fun m => Event.timerArmed m.id m.scheduledTime) ∧
    (∀ j, countAttemptsFor j (initScheduler now ⟨st, ts⟩).2 = 0) ∧
    (∀ gw j,
      countAttemptsFor j (processPendingMessages now gw ⟨st, ts⟩).2 =
        match getScheduledMessage j st with
        | some m => if m.status = MsgStatus.pending ∧ m.scheduledTime ≤ now then 1 else 0
        | none => 0) := by
  have hevs : (initScheduler now ⟨st, ts⟩).2 =
      ((getPendingMessages st).filter (fun m => decide (now < m.scheduledTime))).map
        (fun m => Event.timerArmed m.id m.scheduledTime) := by
    show (loadScheduledMessages now ⟨st, ts⟩).2 = _
    unfold loadScheduledMessages
    have h := loadFold_events now (getPendingMessages st) ⟨st, ts⟩ []
    rw [h]
    simp
  refine ⟨?_, hevs, ?_, ?_⟩
  · show (loadScheduledMessages now ⟨st, ts⟩).1.store = st
    unfold loadScheduledMessages
    exact loadFold_store now (getPendingMessages st) ⟨st, ts⟩ []
  · intro j
    rw [hevs]
    exact countAttemptsFor_armed_map j _
  · intro gw j
    have hmsgs_look : ∀ m ∈ getPendingMessages st, getScheduledMessage m.id st = some m := by
      intro m hm
      exact getMsg_of_mem hwf
        (mem_store_of_mem_values hwf.1 (List.mem_of_mem_filter hm))
    have hmsgs_pend : ∀ m ∈ getPendingMessages st, m.status = MsgStatus.pending := by
      intro m hm
      have := (List.mem_filter.mp hm).2
      simpa using this
    have hmsgs_nd : ((getPendingMessages st).map (fun m => m.id)).Nodup := by
      have hsub : List.Sublist ((getPendingMessages st).map (fun m => m.id))
          ((getScheduledMessages st).map (fun m => m.id)) :=
        List.Sublist.map _ (List.filter_sublist _)
      exact (values_ids_nodup hwf).sublist hsub
    have hcount := sweepFold_count now gw j (getPendingMessages st) ⟨st, ts⟩ []
      hwf hmsgs_look hmsgs_pend hmsgs_nd
    show countAttemptsFor j
        ((getPendingMessages st).foldl (fun acc m =>
          if m.scheduledTime ≤ now then
            let r := processScheduledMessage now (gw m.id) m.id acc.1
            (r.1, acc.2 ++ r.2)
          else acc) (⟨st, ts⟩, [])).2 = _
    rw [hcount]
    rcases hj : getScheduledMessage j st with _ | m
    · have hnone : ¬ ∃ m ∈ getPendingMessages st, m.id = j ∧ m.scheduledTime ≤ now := by
        rintro ⟨m, hm, hid, _⟩
        have hl := hmsgs_look m hm
        rw [hid, hj] at hl
        exact Option.noConfusion hl
      simp [hnone, countAttemptsFor]
    · have hmid : m.id = j := getMsg_id hj
      by_cases hc : m.status = MsgStatus.pending ∧ m.scheduledTime ≤ now
      · have hv : m ∈ getScheduledMessages st := List.mem_of_find?_eq_some hj
        have hmem : m ∈ getPendingMessages st :=
          List.mem_filter.mpr ⟨hv, by simp [hc.1]⟩
        have hex : ∃ m2 ∈ getPendingMessages st, m2.id = j ∧ m2.scheduledTime ≤ now :=
          ⟨m, hmem, hmid, hc.2⟩
        simp [hex, hc, countAttemptsFor]
      · have hnone : ¬ ∃ m2 ∈ getPendingMessages st, m2.id = j ∧ m2.scheduledTime ≤ now := by
          rintro ⟨m2, hm2, hid2, hd2⟩
          have hl := hmsgs_look m2 hm2
          rw [hid2, hj] at hl
          have hm2m : m2 = m := by
            injection hl with h
            exact h.symm
          exact hc (hm2m ▸ ⟨hmsgs_pend m2 hm2, hd2⟩)
        simp [hnone, hc, countAttemptsFor]

/-- Claim C5 witness: a store with one elapsed and one future pending task at
now = 2000: zero attempts at initialisation, and exactly one sweep attempt
for the elapsed task. -/
theorem C5_witness :
    WFStore [("t2", exPendingTask), ("f1", exFutureTask)] ∧
    (∀ j, countAttemptsFor j
      (initScheduler 2000 ⟨[("t2", exPendingTask), ("f1", exFutureTask)], []⟩).2 = 0) ∧
    countAttemptsFor "t2"
      (processPendingMessages 2000 (fun _ => GatewayResult.success)
        ⟨[("t2", exPendingTask), ("f1", exFutureTask)], []⟩).2 =
      (match getScheduledMessage "t2" [("t2", exPendingTask), ("f1", exFutureTask)] with
        | some m => if m.status = MsgStatus.pending ∧ m.scheduledTime ≤ 2000 then 1 else 0
        | none => 0) :=
  ⟨by decide,
   (C5_reinit_behavior 2000 [("t2", exPendingTask), ("f1", exFutureTask)] []
      (by decide)).2.2.1,
   (C5_reinit_behavior 2000 [("t2", exPendingTask), ("f1", exFutureTask)] []
      (by decide)).2.2.2 (fun _ => GatewayResult.success) "t2"⟩

/-- Runtime value of an instant field: a live JS Date object (epoch ms) or,
after a JSON round trip, its ISO-8601 string. -/
inductive TimeVal
  | date (ms : Nat)
  | str (s : String)
deriving DecidableEq, Repr

/-- Runtime representation of a stored ScheduledTask record with the instant
field carrying its runtime type (a RecurringSchedule degrades identically
through its `nextRun` and `createdAt` Date fields). -/
structure StoredTask where
  id : String
  jid : String
  content : String
  scheduledTime : TimeVal
  status : String
  retryCount : Int
  maxRetries : Int
deriving DecidableEq, Repr

/-- One entry of the MemoryAdapter map: the stored value and an optional
expiry instant (src/unnamed/part_007 lines 354-419). -/
structure MemItem where
  value : StoredTask
  expiry : Option Nat
deriving DecidableEq, Repr

abbrev MemStore := List (String × MemItem)

def memSetKey (k : String) (v : MemItem) : MemStore → MemStore
  | [] => [(k, v)]
  | p :: rest => if p.1 = k then (k, v) :: rest else p :: memSetKey k v rest

/-- `MemoryAdapter.set`: stores the value; a truthy ttl (seconds) sets the
expiry to now + ttl * 1000. -/
def memSet (now : Nat) (k : String) (v : StoredTask) (ttl : Option Nat)
    (st : MemStore) : MemStore :=
  memSetKey k
    { value := v,
      expiry := match ttl with
        | some t => if t = 0 then none else some (now + t * 1000)
        | none => none } st

def memLookup (k : String) : MemStore → Option MemItem
  | [] => none
  | p :: rest => if p.1 = k then some p.2 else memLookup k rest

/-- `MemoryAdapter.get`: a missing key yields null; an entry whose expiry has
passed is deleted and yields null; otherwise the stored value object is
returned unchanged. -/
def memGet (now : Nat) (k : String) (st : MemStore) : Option StoredTask × MemStore :=
  match memLookup k st with
  | none => (none, st)
  | some item =>
    match item.expiry with
    | some e =>
      if e < now then (none, st.filter (fun p => !(p.1 == k))) else (some item.value, st)
    | none => (some item.value, st)

abbrev FileStore := List (String × StoredTask)

def fileSetKey (k : String) (v : StoredTask) : FileStore → FileStore
  | [] => [(k, v)]
  | p :: rest => if p.1 = k then (k, v) :: rest else p :: fileSetKey k v rest

/-- `FileAdapter.set` (src/unnamed/part_007 lines 505-508): assign into the
in-memory object and save the JSON file. -/
def fileSet (k : String) (v : StoredTask) (d : FileStore) : FileStore :=
  fileSetKey k v d

/-- `FileAdapter.get`: `this.data[key] || null` (a stored record object is
always truthy). -/
def fileGet (k : String) : FileStore → Option StoredTask
  | [] => none
  | p :: rest => if p.1 = k then some p.2 else fileGet k rest

def pad2 (n : Nat) : String :=
  if n < 10 then "0" ++ toString n else toString n

def pad3 (n : Nat) : String :=
  if n < 10 then "00" ++ toString n
  else if n < 100 then "0" ++ toString n
  else toString n

/-- Gregorian civil date (year, month, day) from days since 1970-01-01,
valid for non-negative day counts. -/
def civilFromDays (z0 : Nat) : Nat × Nat × Nat :=
  let z := z0 + 719468
  let era := z / 146097
  let doe := z % 146097
  let yoe := (doe - doe / 1460 + doe / 36524 - doe / 146096) / 365
  let y := yoe + era * 400
  let doy := doe - (365 * yoe + yoe / 4 - yoe / 100)
  let mp := (5 * doy + 2) / 153
  let d := doy - (153 * mp + 2) / 5 + 1
  let m := if mp < 10 then mp + 3 else mp - 9
  (if m ≤ 2 then y + 1 else y, m, d)

/-- `Date.prototype.toISOString` (= `toJSON`) for instants at or after the
epoch: `YYYY-MM-DDTHH:mm:ss.sssZ`. -/
def dateToISOString (ms : Nat) : String :=
  let days := ms / 86400000
  let rem := ms % 86400000
  let c := civilFromDays days
  let hh := rem / 3600000
  let mi := rem % 3600000 / 60000
  let ss := rem % 60000 / 1000
  let mss := rem % 1000
  toString c.1 ++ "-" ++ pad2 c.2.1 ++ "-" ++ pad2 c.2.2 ++ "T" ++
    pad2 hh ++ ":" ++ pad2 mi ++ ":" ++ pad2 ss ++ "." ++ pad3 mss ++ "Z"

/-- `JSON.stringify` serialises a Date through `Date.prototype.toJSON` as its
ISO-8601 string and `JSON.parse` never revives it, so a save/reload cycle of
the FileAdapter turns every Date field into a string. -/
def timeValToJson : TimeVal → TimeVal
  | .date ms => .str (dateToISOString ms)
  | .str s => .str s

def taskToJson (t : StoredTask) : StoredTask :=
  { t with scheduledTime := timeValToJson t.scheduledTime }

/-- Effect of `FileAdapter.saveToFile` followed by a fresh `initialize` of a
new adapter over the same file: the data record is re-read through
`JSON.parse (JSON.stringify data)`. -/
def fileReloadStore (d : FileStore) : FileStore :=
  d.map (fun p => (p.1, taskToJson p.2))

/-- Concrete stored task whose instant is the Date 2024-01-01T10:00:00Z. -/
def exStoredTask : StoredTask :=
  { id := "s1", jid := "jid1", content := "hello",
    scheduledTime := TimeVal.date 1704103200000,
    status := "pending", retryCount := 0, maxRetries := 3 }

/-- Claim C9: the memory adapter round trip and the within-session file
adapter round trip return the stored record unchanged, but after a file save
and reload the instant field comes back as the ISO-8601 string
`2024-01-01T10:00:00.000Z`, which is not a Date value for any instant: the
persistence round trip does not preserve exact field types. -/
theorem C9_file_roundtrip_degrades :
    (memGet 99999 "scheduled:s1" (memSet 0 "scheduled:s1" exStoredTask none [])).1 =
      some exStoredTask ∧
    fileGet "scheduled:s1" (fileSet "scheduled:s1" exStoredTask []) = some exStoredTask ∧
    dateToISOString 1704103200000 = "2024-01-01T10:00:00.000Z" ∧
    fileGet "scheduled:s1" (fileReloadStore (fileSet "scheduled:s1" exStoredTask [])) =
      some { exStoredTask with
        scheduledTime := TimeVal.str "2024-01-01T10:00:00.000Z" } ∧
    (∀ ms, TimeVal.str "2024-01-01T10:00:00.000Z" ≠ TimeVal.date ms) := by
  refine ⟨by decide, by decide, by decide, by decide, ?_⟩
  intro ms h
  exact TimeVal.noConfusion h
